import Mathlib

/-!
Verification of the SweRV-ISS lockstep driver and hart surface.

Shallow embedding of the code in src/Hart.hpp, src/System.hpp,
src/lockstep.hpp and src/lockstep.cpp.  Machine integers are modelled as
Nat with explicit reduction modulo 2^64 (or 2^width) where the C++ code
relies on fixed-width wrap-around.  Fallible C++ out-parameter routines
(returning bool and writing through a reference) are modelled as
functions returning the success flag together with the (possibly
unchanged) out value and the (possibly unchanged) state.

Member functions of Hart whose bodies live in Hart.cpp (not part of this
source slice), and the register-file / memory / CSR classes included
from other headers, are modelled from the spec and from the doc comments
in src/Hart.hpp; such definitions carry a doc comment starting with
"Modelled from the spec:".
-/

namespace WdRiscv

/-- 2^64, the modulus of the C++ uint64_t arithmetic used by the hart. -/
def u64Mod : Nat := 2 ^ 64

/-- ~uint64_t(0), the all-ones 64-bit value. -/
def u64AllOnes : Nat := 2 ^ 64 - 1

/-- Modelled from the spec: the integer register file (class IntRegs,
IntRegs.hpp is not under src/).  Per the spec, "integer registers
x[0..31] (x[0] reads as 0, writes discarded)": an instruction write to
register 0 is discarded; reads return the stored value. -/
structure IntRegs where
  regs : List Nat

/-- Number of integer registers (IntRegs::size). -/
def IntRegs.size (r : IntRegs) : Nat := r.regs.length

/-- Modelled from the spec: reset state of the register file, 32
registers all zero ("Reset all integer registers to zero"). -/
def IntRegs.resetState : IntRegs := ⟨List.replicate 32 0⟩

/-- Modelled from the spec: instruction write to an integer register;
a write to x0 is discarded. -/
def IntRegs.write (r : IntRegs) (ix val : Nat) : IntRegs :=
  if ix = 0 then r else ⟨r.regs.set ix val⟩

/-- Modelled from the spec: read of an integer register. -/
def IntRegs.read (r : IntRegs) (ix : Nat) : Nat := r.regs.getD ix 0

/-- Apply a sequence of instruction register writes (index, value). -/
def IntRegs.writeAll (r : IntRegs) (ws : List (Nat × Nat)) : IntRegs :=
  ws.foldl (fun acc p => acc.write p.1 p.2) r

/-- Modelled from the spec: the floating point register file (class
FpRegs, FpRegs.hpp is not under src/): "32-entry FP register file". -/
structure FpRegs where
  regs : List Nat

/-- Number of FP registers (FpRegs::size). -/
def FpRegs.size (r : FpRegs) : Nat := r.regs.length

/-- Modelled from the spec: reset state, 32 FP registers all zero. -/
def FpRegs.resetState : FpRegs := ⟨List.replicate 32 0⟩

/-- Load-queue entry: struct LoadInfo of src/Hart.hpp. -/
structure LoadInfo where
  size : Nat
  addr : Nat
  regIx : Nat
  tag : Nat
  prevData : Nat
  valid : Bool
  wide : Bool

/-- Default-constructed LoadInfo (src/Hart.hpp LoadInfo::LoadInfo()). -/
def LoadInfo.empty : LoadInfo := ⟨0, 0, 0, 0, 0, false, false⟩

/-- State of one hart.  Fields mirror the private data members of class
Hart in src/Hart.hpp that the verified claims touch; names drop the
trailing underscore of the C++ fields.  CSRs are modelled as a list of
optional values (none = unimplemented, the out-of-bounds case of
peekCsr/pokeCsr); debug triggers as a list of value triples; memory as
a list of bytes. -/
structure Hart where
  hartIx : Nat
  width : Nat
  pc : Nat
  intRegs : IntRegs
  fpRegs : FpRegs
  csrs : List (Option Nat)
  triggers : List (Nat × Nat × Nat)
  mem : List Nat
  hartStarted : Bool
  rvf : Bool
  rvd : Bool
  instCounter : Nat
  instCountLim : Nat
  alarmInterval : Nat
  alarmLimit : Nat
  loadQueue : List LoadInfo
  maxLoadQueueSize : Nat
  loadQueueEnabled : Bool
  consecutiveIllegalCount : Nat

/-- A hart immediately after reset, with the given register width and
memory contents.  Boolean/numeric fields take the in-class initializer
values of src/Hart.hpp (hartStarted_ = true, rvf_ = rvd_ = false,
instCounter_ = 0, instCountLim_ = ~uint64_t(0), alarmInterval_ = 0,
alarmLimit_ = ~uint64_t(0), maxLoadQueueSize_ = 16,
loadQueueEnabled_ = false, consecutiveIllegalCount_ = 0, pc_ = 0);
register files are in their reset state. -/
def Hart.resetHart (hartIx width : Nat) (mem : List Nat) : Hart :=
  ⟨hartIx, width, 0, IntRegs.resetState, FpRegs.resetState, [], [], mem,
   true, false, false, 0, u64AllOnes, 0, u64AllOnes, [], 16, false, 0⟩

/-- Hart::sysHartIndex (src/Hart.hpp, inline): hartIx_. -/
def Hart.sysHartIndex (h : Hart) : Nat := h.hartIx

/-- Hart::intRegCount (src/Hart.hpp, inline): intRegs_.size(). -/
def Hart.intRegCount (h : Hart) : Nat := h.intRegs.size

/-- Hart::isRvf (src/Hart.hpp, inline): rvf_. -/
def Hart.isRvf (h : Hart) : Bool := h.rvf

/-- Hart::isRvd (src/Hart.hpp, inline): rvd_. -/
def Hart.isRvd (h : Hart) : Bool := h.rvd

/-- Hart::fpRegCount (src/Hart.hpp, inline):
isRvf() ? fpRegs_.size() : 0. -/
def Hart.fpRegCount (h : Hart) : Nat :=
  if h.isRvf then h.fpRegs.size else 0

/-- Hart::memorySize (src/Hart.hpp, inline): memory_.size(). -/
def Hart.memorySize (h : Hart) : Nat := h.mem.length

/-- Hart::isStarted (src/Hart.hpp, inline): hartStarted_. -/
def Hart.isStarted (h : Hart) : Bool := h.hartStarted

/-- Hart::setStarted (src/Hart.hpp, inline): hartStarted_ = flag. -/
def Hart.setStarted (h : Hart) (flag : Bool) : Hart :=
  { h with hartStarted := flag }

/-- Hart::setLoadQueueSize (src/Hart.hpp, inline):
maxLoadQueueSize_ = size. -/
def Hart.setLoadQueueSize (h : Hart) (size : Nat) : Hart :=
  { h with maxLoadQueueSize := size }

/-- Hart::setupPeriodicTimerInterrupts (src/Hart.hpp, inline):
alarmInterval_ = n; alarmLimit_ = n ? instCounter_ + alarmInterval_
: ~uint64_t(0).  The addition is uint64_t arithmetic, hence mod 2^64. -/
def Hart.setupPeriodicTimerInterrupts (h : Hart) (n : Nat) : Hart :=
  { h with alarmInterval := n,
           alarmLimit := if n ≠ 0 then (h.instCounter + n) % u64Mod
                         else u64AllOnes }

/-- Modelled from the spec: Hart::peekPc (body in Hart.cpp, not under
src/): "Return the value of the program counter." -/
def Hart.peekPc (h : Hart) : Nat := h.pc

/-- Modelled from the spec: Hart::pokePc (body in Hart.cpp, not under
src/): "Set the program counter to the given address." -/
def Hart.pokePc (h : Hart) (address : Nat) : Hart :=
  { h with pc := address }

/-- Modelled from the spec: Hart::peekIntReg(reg, val) (body in
Hart.cpp, not under src/): "Set val to the value of integer register
reg returning true on success.  Return false leaving val unmodified if
reg is out of bounds."  Result is (success, out-value). -/
def Hart.peekIntReg (h : Hart) (reg : Nat) (val : Nat) : Bool × Nat :=
  if reg < h.intRegs.size then (true, h.intRegs.read reg) else (false, val)

/-- Modelled from the spec: Hart::pokeIntReg (body in Hart.cpp, not
under src/): "Set the given integer register, reg, to the given value
returning true on success.  Return false if reg is out of bound."
Result is (success, new hart state). -/
def Hart.pokeIntReg (h : Hart) (reg val : Nat) : Bool × Hart :=
  if reg < h.intRegs.size then
    (true, { h with intRegs := ⟨h.intRegs.regs.set reg val⟩ })
  else (false, h)

/-- Modelled from the spec: Hart::peekFpReg (body in Hart.cpp, not
under src/): "Return false leaving val unmodified if reg is out of
bounds of if no floating point extension is enabled." -/
def Hart.peekFpReg (h : Hart) (reg : Nat) (val : Nat) : Bool × Nat :=
  if (h.isRvf || h.isRvd) && reg < h.fpRegs.size then
    (true, h.fpRegs.regs.getD reg 0)
  else (false, val)

/-- Modelled from the spec: Hart::pokeFpReg (body in Hart.cpp, not
under src/): "Set the given FP register, reg, to the given value
returning true on success.  Return false if reg is out of bound." -/
def Hart.pokeFpReg (h : Hart) (reg val : Nat) : Bool × Hart :=
  if (h.isRvf || h.isRvd) && reg < h.fpRegs.size then
    (true, { h with fpRegs := ⟨h.fpRegs.regs.set reg val⟩ })
  else (false, h)

/-- Modelled from the spec: Hart::peekCsr (body in Hart.cpp, not under
src/): "Return false leaving val unmodified if csr is out of bounds."
An unimplemented CSR (none entry, or index past the table) is the
out-of-bounds case. -/
def Hart.peekCsr (h : Hart) (csr : Nat) (val : Nat) : Bool × Nat :=
  match h.csrs.getD csr none with
  | some v => (true, v)
  | none => (false, val)

/-- Modelled from the spec: Hart::pokeCsr (body in Hart.cpp, not under
src/): "Return false if csr is out of bound." -/
def Hart.pokeCsr (h : Hart) (csr val : Nat) : Bool × Hart :=
  match h.csrs.getD csr none with
  | some _ => (true, { h with csrs := h.csrs.set csr (some val) })
  | none => (false, h)

/-- Little-endian value of the k bytes of mem starting at addr. -/
def memReadLe (mem : List Nat) (addr k : Nat) : Nat :=
  match k with
  | 0 => 0
  | j + 1 => mem.getD addr 0 + 256 * memReadLe mem (addr + 1) j

/-- Modelled from the spec: Hart::peekMemory at widths 1/2/4/8 bytes
(bodies in Hart.cpp, not under src/): "Set val to the value ... at the
given address returning true on success and false if address is out of
bounds.  Memory is little endian." -/
def Hart.peekMemory (h : Hart) (k addr : Nat) (val : Nat) : Bool × Nat :=
  if addr + k ≤ h.mem.length then (true, memReadLe h.mem addr k)
  else (false, val)

/-- Write the k little-endian bytes of val to mem starting at addr. -/
def memWriteLe (mem : List Nat) (addr k val : Nat) : List Nat :=
  match k with
  | 0 => mem
  | j + 1 => memWriteLe (mem.set addr (val % 256)) (addr + 1) j (val / 256)

/-- Modelled from the spec: Hart::pokeMemory at widths 1/2/4/8 bytes
(bodies in Hart.cpp, not under src/): "Return true on success and false
on failure (address out of bounds, ...)". -/
def Hart.pokeMemory (h : Hart) (k addr val : Nat) : Bool × Hart :=
  if addr + k ≤ h.mem.length then
    (true, { h with mem := memWriteLe h.mem addr k val })
  else (false, h)

/-- Modelled from the spec: CsRegs::peekTrigger reached through
Hart::peekTrigger (src/Hart.hpp forwards to csRegs_; CsRegs.hpp is not
under src/): "Return true on success and false if trigger is out of
bounds." -/
def Hart.peekTrigger (h : Hart) (trigger : Nat) (vals : Nat × Nat × Nat) :
    Bool × (Nat × Nat × Nat) :=
  match h.triggers[trigger]? with
  | some t => (true, t)
  | none => (false, vals)

/-- Modelled from the spec: CsRegs::pokeTrigger reached through
Hart::pokeTrigger (src/Hart.hpp forwards to csRegs_): "Return true on
success and false if trigger is out of bounds." -/
def Hart.pokeTrigger (h : Hart) (trigger : Nat) (d1 d2 d3 : Nat) :
    Bool × Hart :=
  if trigger < h.triggers.length then
    (true, { h with triggers := h.triggers.set trigger (d1, d2, d3) })
  else (false, h)

/-- Modelled from the spec: Hart::putInLoadQueue (body in Hart.cpp, not
under src/).  The load queue is a "bounded sequence of in-flight loads"
with invariant loadQueue.len() ≤ maxLoadQueueSize; when admitting a new
entry would exceed the bound, the oldest entries are dropped.  Nothing
is queued unless loadQueueEnabled_ is set. -/
def Hart.putInLoadQueue (h : Hart) (entry : LoadInfo) : Hart :=
  if h.loadQueueEnabled = false then h
  else
    let q := h.loadQueue ++ [entry]
    { h with loadQueue := q.drop (q.length - h.maxLoadQueueSize) }

/-- class CoreException of src/Hart.hpp: type of a stop condition,
either a store to the to-host address (Stop) or the exit system call
(Exit). -/
inductive CoreExceptionType
  | Stop
  | Exit
deriving DecidableEq

/-- class CoreException of src/Hart.hpp: "Thrown by the simulator when
a stop (store to to-host) is seen or when the target program reaches
the exit system call."  Carries a type, a message, an address and a
value. -/
structure CoreException where
  type : CoreExceptionType
  msg : String
  addr : Nat
  val : Nat

/-- CoreException::address (src/Hart.hpp, inline): addr_. -/
def CoreException.address (e : CoreException) : Nat := e.addr

/-- CoreException::value (src/Hart.hpp, inline): val_. -/
def CoreException.value (e : CoreException) : Nat := e.val

/-- CoreException::type (src/Hart.hpp, inline): type_. -/
def CoreException.getType (e : CoreException) : CoreExceptionType := e.type

/-- Outcome tag delivered to the driver when the run() loop ends. -/
inductive RunOutcome
  | Stopped
  | Exited
  | LimitReached
  | TrapLoop
deriving DecidableEq

/-- Per-instruction outcome as seen by the run() loop: a normally
retired instruction, an illegal-instruction trap, a store to the
to-host address, or an exit ECALL. -/
inductive StepEvent
  | Normal
  | IllegalTrap
  | ToHostStore (addr val : Nat)
  | ExitEcall (addr val : Nat)
deriving DecidableEq

/-- Modelled from the spec: the Hart::run loop (body in Hart.cpp, not
under src/).  "run() loops until a stop condition is reached: a write
to toHost, ... an ECALL matching the exit system call, or the
instruction-count limit"; the driver receives an outcome tag (Stopped,
Exited, LimitReached, TrapLoop if consecutive illegal-instruction traps
exceed a threshold).  Per-instruction outcomes are abstracted as a list
of events; the result is none when the event list is exhausted before
any stop condition is reached. -/
def runFromEvents (limit threshold : Nat) :
    Nat → Nat → List StepEvent → Option RunOutcome
  | instCounter, consecIllegal, evs =>
    if limit ≤ instCounter then some RunOutcome.LimitReached
    else
      match evs with
      | [] => none
      | StepEvent.Normal :: rest =>
          runFromEvents limit threshold (instCounter + 1) 0 rest
      | StepEvent.IllegalTrap :: rest =>
          if threshold < consecIllegal + 1 then some RunOutcome.TrapLoop
          else runFromEvents limit threshold (instCounter + 1)
                 (consecIllegal + 1) rest
      | StepEvent.ToHostStore _ _ :: _ => some RunOutcome.Stopped
      | StepEvent.ExitEcall _ _ :: _ => some RunOutcome.Exited

/-- class System of src/System.hpp: owns the ordered list of harts.
hartCount and hartsPerCore mirror the hartCount_ and hartsPerCore_
data members; sysHarts mirrors sysHarts_. -/
structure System where
  hartCount : Nat
  hartsPerCore : Nat
  sysHarts : List Hart

/-- System::ithHart (src/System.hpp, inline): "Return pointer to the
ith hart in the system or null if i is out of bounds": if
i >= sysHarts_.size() return the null pointer, else sysHarts_.at(i). -/
def System.ithHart (s : System) (i : Nat) : Option Hart :=
  if h : s.sysHarts.length ≤ i then none
  else some (s.sysHarts.get ⟨i, Nat.lt_of_not_le h⟩)

/-- Modelled from the spec: System::System (System.cpp is not under
src/): "Construct a system with n (coreCount) cores each consisting of
m (hartsPerCore) harts.  The harts in this system are indexed with 0 to
n*m - 1."  Each hart starts in its reset state with its system index. -/
def System.construct (coreCount hartsPerCore width : Nat) (mem : List Nat) :
    System :=
  ⟨coreCount * hartsPerCore, hartsPerCore,
   (List.range (coreCount * hartsPerCore)).map
     (fun i => Hart.resetHart i width mem)⟩

/-- Lockstep::untilCommand (src/lockstep.cpp): warn (to stderr) when
the address is outside the memory range, then return
hart.untilAddress(addr, traceFile).  The body of Hart::untilAddress is
in Hart.cpp, not under src/; it is passed as the abstract function
untilAddress.  The first component collects the warning lines written
to stderr. -/
def Lockstep.untilCommand (untilAddress : Hart → Nat → Bool) (hart : Hart)
    (addr : Nat) : List String × Bool :=
  ((if hart.memorySize ≤ addr then ["Warning: Address outside memory range."]
    else []),
   untilAddress hart addr)

/-- Lockstep::stepCommand (src/lockstep.cpp): refuse (returning false)
when the hart is not started; return true immediately when count is 0;
otherwise invoke hart.singleStep(traceFile) count times and return
true.  The body of Hart::singleStep is in Hart.cpp, not under src/; it
is passed as the abstract state transformer step.  The for loop is
mirrored by a fold over List.range count. -/
def Lockstep.stepCommand (step : Hart → Hart) (hart : Hart) (count : Nat) :
    Bool × Hart :=
  if hart.isStarted = false then (false, hart)
  else if count = 0 then (true, hart)
  else (true, (List.range count).foldl (fun h _ => step h) hart)

/-- Lockstep::peekAllFpRegs (src/lockstep.cpp): for i below
hart.fpRegCount(), peek FP register i and push the value on success. -/
def Lockstep.peekAllFpRegs (hart : Hart) : List Nat :=
  (List.range hart.fpRegCount).filterMap (fun i =>
    let r := hart.peekFpReg i 0
    if r.1 then some r.2 else none)

/-- Lockstep::peekAllIntRegs (src/lockstep.cpp): for i below
hart.intRegCount(), peek integer register i and push the value on
success. -/
def Lockstep.peekAllIntRegs (hart : Hart) : List Nat :=
  (List.range hart.intRegCount).filterMap (fun i =>
    let r := hart.peekIntReg i 0
    if r.1 then some r.2 else none)

/-- Modelled from the spec: the single-argument Hart::peekIntReg
overload (body in Hart.cpp, not under src/): "Return to the value of
integer register reg which must not be out of bounds". -/
def Hart.peekIntRegVal (h : Hart) (reg : Nat) : Nat := h.intRegs.read reg

/-- Lockstep::peekIntReg (src/lockstep.cpp): hart.peekIntReg(reg),
the single-argument overload. -/
def Lockstep.peekIntReg (hart : Hart) (reg : Nat) : Nat :=
  hart.peekIntRegVal reg

/-- Lockstep::loadElf (src/lockstep.cpp): call
hart.loadElfFile(filename, entryPoint); on failure return false; on
success set the hart PC to URV(entryPoint) via pokePc and return true.
The body of Hart::loadElfFile is in Hart.cpp, not under src/; modelled
from the spec ("external loader places bytes in Memory" and the doc
comment: load contents into memory, return false if the file does not
exist, cannot be opened or is malformed, else set entryPoint), it is
passed as the abstract function elf mapping a file name to the loaded
memory image and entry point.  URV(entryPoint) truncates the 64-bit
entry point to the register width. -/
def Lockstep.loadElf (elf : String → Option (List Nat × Nat)) (hart : Hart)
    (filename : String) : Bool × Hart :=
  match elf filename with
  | none => (false, hart)
  | some (image, entryPoint) =>
      (true, Hart.pokePc { hart with mem := image }
               (entryPoint % 2 ^ hart.width))

/-- File name used to instantiate the abstract ELF loader in witnesses. -/
def elfName : String := "test.elf"

/-- A hart used as concrete input in witness theorems: RV64, reset
state, four bytes of memory, four implemented CSRs, two triggers. -/
def testHart : Hart :=
  { Hart.resetHart 0 64 [17, 34, 51, 68] with
    csrs := [some 5, none, some 7, some 0],
    triggers := [(1, 2, 3), (4, 5, 6)] }

/-- A hart with the D extension enabled but the F extension disabled. -/
def dOnlyHart : Hart := { Hart.resetHart 0 64 [] with rvd := true }

/-- A hart whose register file was produced by two instruction writes
(one of them targeting x0) after reset. -/
def writtenHart : Hart :=
  { Hart.resetHart 0 64 [] with
    intRegs := IntRegs.resetState.writeAll [(0, 5), (3, 7)] }

/-- A hart with the load queue enabled and a small queue bound. -/
def queueHart : Hart :=
  { Hart.resetHart 0 64 [] with
    loadQueueEnabled := true
    maxLoadQueueSize := 2 }

/-- An always-succeeding instantiation of the abstract ELF loader. -/
def elfOk : String → Option (List Nat × Nat) := fun _ => some ([1, 2], 4096)

/-- An always-failing instantiation of the abstract ELF loader. -/
def elfBad : String → Option (List Nat × Nat) := fun _ => none

/-- A hart with the F extension enabled. -/
def fOnlyHart : Hart := { Hart.resetHart 0 64 [] with rvf := true }

/- ------------------------------------------------------------------ -/
/- Helper lemmas.                                                      -/
/- ------------------------------------------------------------------ -/

/-- The for loop of stepCommand, folded over List.range, is n-fold
iteration of the step function. -/
theorem foldl_range_eq_iterate (step : Hart → Hart) (n : Nat) :
    ∀ hart : Hart,
      (List.range n).foldl (fun h _ => step h) hart = step^[n] hart := by
  induction n with
  | zero => intro hart; rfl
  | succ k ih =>
      intro hart
      rw [List.range_succ, List.foldl_append, ih]
      simp [Function.iterate_succ_apply']

/-- If no illegal-instruction trap occurs among the events, the run
loop never reports TrapLoop. -/
theorem runFromEvents_no_illegal_no_traploop (limit threshold : Nat) :
    ∀ (evs : List StepEvent) (ic ci : Nat) (o : RunOutcome),
      StepEvent.IllegalTrap ∉ evs →
      runFromEvents limit threshold ic ci evs = some o →
      o ≠ RunOutcome.TrapLoop := by
  intro evs
  induction evs with
  | nil =>
      intro ic ci o _ hrun
      unfold runFromEvents at hrun
      split at hrun
      · cases hrun; intro hcontra; cases hcontra
      · cases hrun
  | cons ev rest ih =>
      intro ic ci o hmem hrun
      unfold runFromEvents at hrun
      split at hrun
      · cases hrun; intro hcontra; cases hcontra
      · cases ev with
        | Normal =>
            exact ih (ic + 1) 0 o (fun hr => hmem (List.mem_cons_of_mem _ hr))
              hrun
        | IllegalTrap => exact absurd (List.mem_cons_self _ _) hmem
        | ToHostStore a v => cases hrun; intro hcontra; cases hcontra
        | ExitEcall a v => cases hrun; intro hcontra; cases hcontra

/-- An instruction-level register write never changes the register
count. -/
theorem IntRegs.size_write (r : IntRegs) (ix v : Nat) :
    (r.write ix v).size = r.size := by
  unfold IntRegs.write IntRegs.size
  split <;> simp

/-- An instruction-level register write preserves the x0-is-zero
reading. -/
theorem IntRegs.read_zero_write (r : IntRegs) (ix v : Nat)
    (h : r.read 0 = 0) : (r.write ix v).read 0 = 0 := by
  unfold IntRegs.write IntRegs.read at *
  split
  · exact h
  · rename_i hne
    rw [List.getD_eq_getElem?_getD, List.getElem?_set_ne hne,
        ← List.getD_eq_getElem?_getD]
    exact h

/-- Any sequence of instruction-level register writes preserves the
x0-is-zero reading. -/
theorem IntRegs.read_zero_writeAll (ws : List (Nat × Nat)) :
    ∀ r : IntRegs, r.read 0 = 0 → (r.writeAll ws).read 0 = 0 := by
  induction ws with
  | nil => intro r h; exact h
  | cons w rest ih =>
      intro r h
      exact ih _ (IntRegs.read_zero_write r w.1 w.2 h)

/-- Any sequence of instruction-level register writes preserves the
register count. -/
theorem IntRegs.size_writeAll (ws : List (Nat × Nat)) :
    ∀ r : IntRegs, (r.writeAll ws).size = r.size := by
  induction ws with
  | nil => intro r; rfl
  | cons w rest ih =>
      intro r
      rw [IntRegs.writeAll, List.foldl_cons]
      rw [show ∀ s : IntRegs, List.foldl (fun acc p => acc.write p.1 p.2) s rest
            = s.writeAll rest from fun s => rfl]
      rw [ih, IntRegs.size_write]

/-- A filterMap over List.range n that succeeds at every index below n
produces exactly n elements. -/
theorem filterMap_range_length (f : Nat → Option Nat) :
    ∀ n : Nat, (∀ i, i < n → (f i).isSome = true) →
      ((List.range n).filterMap f).length = n := by
  intro n
  induction n with
  | zero => intro _; rfl
  | succ k ih =>
      intro hall
      rw [List.range_succ, List.filterMap_append, List.length_append]
      rw [ih (fun i hi => hall i (Nat.lt_succ_of_lt hi))]
      have hk := hall k (Nat.lt_succ_self k)
      cases hfk : f k with
      | none => rw [hfk] at hk; simp at hk
      | some v => simp [hfk]

/-- putInLoadQueue keeps the queue length within maxLoadQueueSize and
does not change the bound itself. -/
theorem Hart.putInLoadQueue_bound (h : Hart) (e : LoadInfo)
    (hle : h.loadQueue.length ≤ h.maxLoadQueueSize) :
    (h.putInLoadQueue e).loadQueue.length ≤ h.maxLoadQueueSize ∧
    (h.putInLoadQueue e).maxLoadQueueSize = h.maxLoadQueueSize := by
  unfold Hart.putInLoadQueue
  split
  · exact ⟨hle, rfl⟩
  · refine ⟨?_, rfl⟩
    simp only [List.length_drop, List.length_append, List.length_cons]
    omega

/-- The load-queue bound is an invariant of any sequence of
putInLoadQueue calls. -/
theorem Hart.putInLoadQueue_bound_foldl (es : List LoadInfo) :
    ∀ h : Hart, h.loadQueue.length ≤ h.maxLoadQueueSize →
      (es.foldl Hart.putInLoadQueue h).loadQueue.length ≤
        (es.foldl Hart.putInLoadQueue h).maxLoadQueueSize := by
  induction es with
  | nil => intro h hle; exact hle
  | cons e rest ih =>
      intro h hle
      have hb := Hart.putInLoadQueue_bound h e hle
      rw [List.foldl_cons]
      exact ih _ (hb.2 ▸ hb.1)

/- ------------------------------------------------------------------ -/
/- Claim theorems.                                                     -/
/- ------------------------------------------------------------------ -/

/-- C8: setupPeriodicTimerInterrupts(n) with n > 0 sets alarmInterval
to n and alarmLimit to instCounter + n (uint64_t arithmetic, hence
modulo 2^64, which agrees with instCounter + n whenever that sum fits
in 64 bits); with n = 0 it sets alarmInterval to 0 and alarmLimit to
~uint64_t(0) = 2^64 - 1, so no timer interrupt is ever forced. -/
theorem c8_setup_periodic_timer (h : Hart) (n : Nat) :
    (0 < n →
      (h.setupPeriodicTimerInterrupts n).alarmInterval = n ∧
      (h.setupPeriodicTimerInterrupts n).alarmLimit
        = (h.instCounter + n) % u64Mod ∧
      (h.instCounter + n < u64Mod →
        (h.setupPeriodicTimerInterrupts n).alarmLimit = h.instCounter + n)) ∧
    (n = 0 →
      (h.setupPeriodicTimerInterrupts n).alarmInterval = 0 ∧
      (h.setupPeriodicTimerInterrupts n).alarmLimit = 2 ^ 64 - 1) := by
  constructor
  · intro hn
    have hne : n ≠ 0 := Nat.pos_iff_ne_zero.mp hn
    refine ⟨by simp [Hart.setupPeriodicTimerInterrupts], ?_, ?_⟩
    · simp [Hart.setupPeriodicTimerInterrupts, hne]
    · intro hlt
      simp [Hart.setupPeriodicTimerInterrupts, hne, Nat.mod_eq_of_lt hlt]
  · intro hn
    subst hn
    exact ⟨by simp [Hart.setupPeriodicTimerInterrupts],
           by simp [Hart.setupPeriodicTimerInterrupts, u64AllOnes]⟩

/-- C8 witness: on a reset RV64 hart, setupPeriodicTimerInterrupts 5
sets alarmInterval to 5 and alarmLimit to 0 + 5 = 5, and
setupPeriodicTimerInterrupts 0 sets alarmLimit to 2^64 - 1. -/
theorem c8_setup_periodic_timer_witness :
    (testHart.setupPeriodicTimerInterrupts 5).alarmInterval = 5 ∧
    (testHart.setupPeriodicTimerInterrupts 5).alarmLimit = 5 ∧
    (testHart.setupPeriodicTimerInterrupts 0).alarmLimit = 2 ^ 64 - 1 := by
  have h5 := (c8_setup_periodic_timer testHart 5).1 (by decide)
  have h0 := (c8_setup_periodic_timer testHart 0).2 rfl
  refine ⟨h5.1, ?_, h0.2⟩
  have : testHart.instCounter + 5 < u64Mod := by
    show 0 + 5 < u64Mod
    decide
  rw [h5.2.2 this]
  decide

/-- C10: untilCommand returns exactly hart.untilAddress(addr,
traceFile) for every address, and the warning line is emitted exactly
when the address is outside the memory range; the warning never
prevents the run from starting. -/
theorem c10_until_command (untilAddress : Hart → Nat → Bool) (hart : Hart)
    (addr : Nat) :
    (Lockstep.untilCommand untilAddress hart addr).2 = untilAddress hart addr ∧
    ((Lockstep.untilCommand untilAddress hart addr).1 ≠ [] ↔
      hart.memorySize ≤ addr) := by
  refine ⟨rfl, ?_⟩
  unfold Lockstep.untilCommand
  split <;> simp_all

/-- C5: stepCommand on a non-started hart returns false and executes no
instruction (the hart state is returned unchanged); on a started hart
it returns true and the final state is exactly n successive invocations
of singleStep, for every n including n = 0. -/
theorem c5_step_command (step : Hart → Hart) (hart : Hart) (count : Nat) :
    (hart.isStarted = false →
      Lockstep.stepCommand step hart count = (false, hart)) ∧
    (hart.isStarted = true →
      (Lockstep.stepCommand step hart count).1 = true ∧
      (Lockstep.stepCommand step hart count).2 = step^[count] hart) := by
  constructor
  · intro hns
    unfold Lockstep.stepCommand
    simp [hns]
  · intro hs
    unfold Lockstep.stepCommand
    simp only [hs]
    by_cases hc : count = 0
    · subst hc; simp
    · simp [hc, foldl_range_eq_iterate]

/-- C5 witness: on the started test hart, stepping 3 times with a step
function that bumps the pc succeeds and applies the step 3 times;
stepping 0 times succeeds without stepping; on the same hart marked
not-started, stepCommand fails and leaves the hart unchanged. -/
theorem c5_step_command_witness :
    (Lockstep.stepCommand (fun h => h.pokePc (h.pc + 4)) testHart 3).1 = true ∧
    ((Lockstep.stepCommand (fun h => h.pokePc (h.pc + 4)) testHart 3).2.pc
      = 12) ∧
    Lockstep.stepCommand (fun h => h.pokePc (h.pc + 4)) testHart 0
      = (true, testHart) ∧
    Lockstep.stepCommand (fun h => h.pokePc (h.pc + 4))
        (testHart.setStarted false) 3
      = (false, testHart.setStarted false) := by
  have h3 := (c5_step_command (fun h => h.pokePc (h.pc + 4)) testHart 3).2 rfl
  have h0 := (c5_step_command (fun h => h.pokePc (h.pc + 4)) testHart 0).2 rfl
  have hns := (c5_step_command (fun h => h.pokePc (h.pc + 4))
    (testHart.setStarted false) 3).1 rfl
  refine ⟨h3.1, ?_, ?_, hns⟩
  · rw [h3.2]; rfl
  · rw [Prod.ext_iff]
    exact ⟨h0.1, h0.2.trans rfl⟩

/-- C4: a System constructed with n cores and m harts per core has
hartCount() = n*m; ithHart(i) is null exactly when i ≥ n*m; and for
every i < n*m it yields the i-th hart of the system, whose system index
is i. -/
theorem c4_system_hart_indexing (n m width : Nat) (mem : List Nat) (i : Nat) :
    (System.construct n m width mem).hartCount = n * m ∧
    ((System.construct n m width mem).ithHart i = none ↔ n * m ≤ i) ∧
    (i < n * m →
      (System.construct n m width mem).ithHart i
          = some (Hart.resetHart i width mem) ∧
      (Hart.resetHart i width mem).sysHartIndex = i) := by
  refine ⟨rfl, ?_, ?_⟩
  · unfold System.ithHart System.construct
    simp
  · intro hi
    refine ⟨?_, rfl⟩
    unfold System.ithHart System.construct
    simp only [List.length_map, List.length_range]
    rw [dif_neg (by omega)]
    simp

/-- C4 witness: a system of 2 cores with 3 harts per core has 6 harts;
hart 4 exists with system index 4; hart 6 is null. -/
theorem c4_system_hart_indexing_witness :
    (System.construct 2 3 64 []).hartCount = 6 ∧
    (System.construct 2 3 64 []).ithHart 4
        = some (Hart.resetHart 4 64 []) ∧
    (Hart.resetHart 4 64 []).sysHartIndex = 4 ∧
    (System.construct 2 3 64 []).ithHart 6 = none := by
  have h := c4_system_hart_indexing 2 3 64 [] 4
  have h6 := c4_system_hart_indexing 2 3 64 [] 6
  have hlt := h.2.2 (by decide)
  exact ⟨h.1, hlt.1, hlt.2, h6.2.1.mpr (by decide)⟩

/-- C1: on any hart whose integer register file results from reset
followed by an arbitrary sequence of executed-instruction register
writes, x0 reads as zero; in particular peekIntReg reports success with
value 0 for register 0, the single-argument peek used by
Lockstep::peekIntReg reports 0, and the value reported for register 0
(the first entry) by Lockstep::peekAllIntRegs is 0. -/
theorem c1_x0_always_zero (ws : List (Nat × Nat)) (h : Hart) (v : Nat)
    (hregs : h.intRegs = IntRegs.resetState.writeAll ws) :
    h.intRegs.read 0 = 0 ∧
    h.peekIntReg 0 v = (true, 0) ∧
    Lockstep.peekIntReg h 0 = 0 ∧
    (Lockstep.peekAllIntRegs h).head? = some 0 := by
  have hzero : h.intRegs.read 0 = 0 := by
    rw [hregs]
    exact IntRegs.read_zero_writeAll ws IntRegs.resetState (by decide)
  have hsize : h.intRegs.size = 32 := by
    rw [hregs, IntRegs.size_writeAll]
    decide
  have hpeek : ∀ u, h.peekIntReg 0 u = (true, 0) := by
    intro u
    unfold Hart.peekIntReg
    rw [if_pos (by omega), hzero]
  have hval : Lockstep.peekIntReg h 0 = 0 := by
    unfold Lockstep.peekIntReg Hart.peekIntRegVal
    exact hzero
  refine ⟨hzero, hpeek v, hval, ?_⟩
  unfold Lockstep.peekAllIntRegs
  rw [show h.intRegCount = 32 from hsize, List.range_succ_eq_map,
      List.filterMap_cons]
  simp [hpeek 0]

/-- C1 witness: a concrete hart obtained from reset by writing 5 to x0
(discarded) and 7 to x3 still reads x0 as 0 through every interface. -/
theorem c1_x0_always_zero_witness :
    writtenHart.intRegs.read 0 = 0 ∧
    writtenHart.peekIntReg 0 9 = (true, 0) ∧
    Lockstep.peekIntReg writtenHart 0 = 0 ∧
    (Lockstep.peekAllIntRegs writtenHart).head? = some 0 :=
  c1_x0_always_zero [(0, 5), (3, 7)] writtenHart 9 rfl

/-- C2: whenever the run loop terminates with an outcome, that outcome
is one of the four tags Stopped, Exited, LimitReached, TrapLoop;
TrapLoop is reported only in the presence of illegal-instruction traps;
and the stop conditions represented by CoreException (Stop, Exit) each
carry an address and a value retrievable through address() and
value(). -/
theorem c2_run_outcome_tags (limit threshold ic ci : Nat)
    (evs : List StepEvent) (o : RunOutcome)
    (hrun : runFromEvents limit threshold ic ci evs = some o) :
    (o = RunOutcome.Stopped ∨ o = RunOutcome.Exited ∨
     o = RunOutcome.LimitReached ∨ o = RunOutcome.TrapLoop) ∧
    (StepEvent.IllegalTrap ∉ evs → o ≠ RunOutcome.TrapLoop) ∧
    (∀ (t : CoreExceptionType) (msg : String) (a v : Nat),
      (CoreException.mk t msg a v).address = a ∧
      (CoreException.mk t msg a v).value = v) := by
  refine ⟨?_, ?_, fun t msg a v => ⟨rfl, rfl⟩⟩
  · cases o <;> tauto
  · intro hmem
    exact runFromEvents_no_illegal_no_traploop limit threshold evs ic ci o
      hmem hrun

/-- C2 witness: a run over one to-host store terminates with the
Stopped tag, and a concrete CoreException of type Stop carries its
address 5 and value 7. -/
theorem c2_run_outcome_tags_witness :
    runFromEvents 10 64 0 0 [StepEvent.ToHostStore 5 7]
        = some RunOutcome.Stopped ∧
    (CoreException.mk CoreExceptionType.Stop elfName 5 7).address = 5 ∧
    (CoreException.mk CoreExceptionType.Stop elfName 5 7).value = 7 := by
  have hrun : runFromEvents 10 64 0 0 [StepEvent.ToHostStore 5 7]
      = some RunOutcome.Stopped := by decide
  have h := c2_run_outcome_tags 10 64 0 0 _ _ hrun
  exact ⟨hrun, h.2.2 CoreExceptionType.Stop elfName 5 7⟩

/-- C3: every indexed peek/poke on the hart surface (integer register,
FP register, CSR, debug trigger, memory at any byte width) fails on an
out-of-range index or address by returning false, leaving the
out-parameter and the hart state unmodified. -/
theorem c3_peek_poke_fallible (h : Hart)
    (reg csr trigger addr k val d1 d2 d3 : Nat) (vals : Nat × Nat × Nat) :
    (h.intRegs.size ≤ reg →
      h.peekIntReg reg val = (false, val) ∧
      h.pokeIntReg reg val = (false, h)) ∧
    (h.fpRegs.size ≤ reg →
      h.peekFpReg reg val = (false, val) ∧
      h.pokeFpReg reg val = (false, h)) ∧
    (h.csrs.length ≤ csr →
      h.peekCsr csr val = (false, val) ∧
      h.pokeCsr csr val = (false, h)) ∧
    (h.triggers.length ≤ trigger →
      h.peekTrigger trigger vals = (false, vals) ∧
      h.pokeTrigger trigger d1 d2 d3 = (false, h)) ∧
    (h.mem.length < addr + k →
      h.peekMemory k addr val = (false, val) ∧
      h.pokeMemory k addr val = (false, h)) := by
  refine ⟨?_, ?_, ?_, ?_, ?_⟩
  · intro hle
    have hnlt : ¬ reg < h.intRegs.size := Nat.not_lt.mpr hle
    exact ⟨by unfold Hart.peekIntReg; rw [if_neg hnlt],
           by unfold Hart.pokeIntReg; rw [if_neg hnlt]⟩
  · intro hle
    have hnlt : ¬ reg < h.fpRegs.size := Nat.not_lt.mpr hle
    constructor
    · unfold Hart.peekFpReg
      simp [hnlt]
    · unfold Hart.pokeFpReg
      simp [hnlt]
  · intro hle
    have hd : h.csrs.getD csr none = none := List.getD_eq_default _ _ hle
    exact ⟨by unfold Hart.peekCsr; rw [hd],
           by unfold Hart.pokeCsr; rw [hd]⟩
  · intro hle
    have hd : h.triggers[trigger]? = none := by
      rw [List.getElem?_eq_none hle]
    have hnlt : ¬ trigger < h.triggers.length := Nat.not_lt.mpr hle
    exact ⟨by unfold Hart.peekTrigger; rw [hd],
           by unfold Hart.pokeTrigger; rw [if_neg hnlt]⟩
  · intro hgt
    have hnle : ¬ addr + k ≤ h.mem.length := Nat.not_le.mpr hgt
    exact ⟨by unfold Hart.peekMemory; rw [if_neg hnle],
           by unfold Hart.pokeMemory; rw [if_neg hnle]⟩

/-- C3 witness: on the concrete test hart (32 integer registers, 32 FP
registers, 4 CSR slots, 2 triggers, 4 bytes of memory) every surface
operation fails and changes nothing at register index 32, CSR 4,
trigger 2 and a 2-byte access at address 3. -/
theorem c3_peek_poke_fallible_witness :
    testHart.peekIntReg 32 9 = (false, 9) ∧
    testHart.pokeIntReg 32 9 = (false, testHart) ∧
    testHart.peekFpReg 32 9 = (false, 9) ∧
    testHart.pokeFpReg 32 9 = (false, testHart) ∧
    testHart.peekCsr 4 9 = (false, 9) ∧
    testHart.pokeCsr 4 9 = (false, testHart) ∧
    testHart.peekTrigger 2 (7, 8, 9) = (false, (7, 8, 9)) ∧
    testHart.pokeTrigger 2 1 2 3 = (false, testHart) ∧
    testHart.peekMemory 2 3 9 = (false, 9) ∧
    testHart.pokeMemory 2 3 9 = (false, testHart) := by
  have h := c3_peek_poke_fallible testHart 32 4 2 3 2 9 1 2 3 (7, 8, 9)
  have h1 := h.1 (by decide)
  have h2 := h.2.1 (by decide)
  have h3 := h.2.2.1 (by decide)
  have h4 := h.2.2.2.1 (by decide)
  have h5 := h.2.2.2.2 (by decide)
  exact ⟨h1.1, h1.2, h2.1, h2.2, h3.1, h3.2, h4.1, h4.2, h5.1, h5.2⟩

/-- C6 counterexample: a hart with the D extension enabled and the F
extension disabled has a 32-entry FP register file, yet fpRegCount()
returns 0, not 32: the claim that F-or-D enabled implies
fpRegCount() = 32 fails on the code, which tests isRvf() only. -/
theorem c6_fp_reg_count_counterexample :
    dOnlyHart.isRvd = true ∧ dOnlyHart.isRvf = false ∧
    dOnlyHart.fpRegs.size = 32 ∧ dOnlyHart.fpRegCount = 0 ∧
    dOnlyHart.fpRegCount ≠ 32 := by decide

/-- C6 (amended): on every hart with the 32-entry FP register file,
fpRegCount() returns 32 exactly when the F extension is enabled
(regardless of D), and then peekAllFpRegs returns one value per FP
register; when F is disabled fpRegCount() returns 0 and peekAllFpRegs
returns no values. -/
theorem c6_fp_reg_count (h : Hart) (h32 : h.fpRegs.size = 32) :
    (h.isRvf = true →
      h.fpRegCount = 32 ∧ (Lockstep.peekAllFpRegs h).length = 32) ∧
    (h.isRvf = false →
      h.fpRegCount = 0 ∧ Lockstep.peekAllFpRegs h = []) := by
  constructor
  · intro hf
    have hcount : h.fpRegCount = 32 := by
      unfold Hart.fpRegCount
      rw [hf, if_pos rfl, h32]
    refine ⟨hcount, ?_⟩
    unfold Lockstep.peekAllFpRegs
    rw [show h.fpRegCount = 32 from hcount]
    apply filterMap_range_length
    intro i hi
    simp [Hart.peekFpReg, hf, h32, hi]
  · intro hf
    have hcount : h.fpRegCount = 0 := by
      unfold Hart.fpRegCount
      rw [hf]
      rfl
    refine ⟨hcount, ?_⟩
    unfold Lockstep.peekAllFpRegs
    rw [show h.fpRegCount = 0 from hcount]
    rfl

/-- C6 witness: the F-enabled hart reports 32 FP registers and 32
peeked values; the reset hart (F disabled) reports 0 and none. -/
theorem c6_fp_reg_count_witness :
    fOnlyHart.fpRegCount = 32 ∧
    (Lockstep.peekAllFpRegs fOnlyHart).length = 32 ∧
    (Hart.resetHart 0 64 []).fpRegCount = 0 ∧
    Lockstep.peekAllFpRegs (Hart.resetHart 0 64 []) = [] := by
  have hf := (c6_fp_reg_count fOnlyHart (by decide)).1 rfl
  have hn := (c6_fp_reg_count (Hart.resetHart 0 64 []) (by decide)).2 rfl
  exact ⟨hf.1, hf.2, hn.1, hn.2⟩

/-- C7: starting from any hart whose load queue is within bound, any
sequence of putInLoadQueue operations keeps the queue length at most
maxLoadQueueSize; the reset (default) value of maxLoadQueueSize is 16;
and setLoadQueueSize changes the bound to its argument. -/
theorem c7_load_queue_bounded (h : Hart) (es : List LoadInfo)
    (hle : h.loadQueue.length ≤ h.maxLoadQueueSize) :
    (es.foldl Hart.putInLoadQueue h).loadQueue.length ≤
      (es.foldl Hart.putInLoadQueue h).maxLoadQueueSize ∧
    (∀ hartIx width mem,
      (Hart.resetHart hartIx width mem).maxLoadQueueSize = 16) ∧
    (∀ n, (h.setLoadQueueSize n).maxLoadQueueSize = n) :=
  ⟨Hart.putInLoadQueue_bound_foldl es h hle, fun _ _ _ => rfl, fun _ => rfl⟩

/-- C7 witness: pushing 3 entries into an enabled queue bounded at 2
leaves the queue within bound, and a reset hart has bound 16. -/
theorem c7_load_queue_bounded_witness :
    ((List.replicate 3 LoadInfo.empty).foldl Hart.putInLoadQueue
        queueHart).loadQueue.length ≤
      ((List.replicate 3 LoadInfo.empty).foldl Hart.putInLoadQueue
        queueHart).maxLoadQueueSize ∧
    (Hart.resetHart 0 64 []).maxLoadQueueSize = 16 := by
  have h := c7_load_queue_bounded queueHart
    (List.replicate 3 LoadInfo.empty) (by decide)
  exact ⟨h.1, h.2.1 0 64 []⟩

/-- C9: loadElf fails (returning false with the hart, in particular its
PC, unchanged) exactly when the underlying ELF load fails; on success
it returns true and the hart PC equals the ELF entry point truncated to
the register width, hence the entry point itself whenever it fits. -/
theorem c9_load_elf (elf : String → Option (List Nat × Nat)) (hart : Hart)
    (filename : String) :
    (elf filename = none →
      Lockstep.loadElf elf hart filename = (false, hart) ∧
      (Lockstep.loadElf elf hart filename).2.pc = hart.pc) ∧
    (∀ image entryPoint, elf filename = some (image, entryPoint) →
      (Lockstep.loadElf elf hart filename).1 = true ∧
      (Lockstep.loadElf elf hart filename).2.pc
          = entryPoint % 2 ^ hart.width ∧
      (entryPoint < 2 ^ hart.width →
        (Lockstep.loadElf elf hart filename).2.pc = entryPoint)) := by
  constructor
  · intro hn
    constructor
    · unfold Lockstep.loadElf
      rw [hn]
    · unfold Lockstep.loadElf
      rw [hn]
  · intro image entryPoint hs
    refine ⟨?_, ?_, ?_⟩
    · unfold Lockstep.loadElf
      rw [hs]
    · unfold Lockstep.loadElf
      rw [hs]
      rfl
    · intro hlt
      unfold Lockstep.loadElf
      rw [hs]
      show entryPoint % 2 ^ hart.width = entryPoint
      exact Nat.mod_eq_of_lt hlt

/-- C9 witness: the failing loader leaves the test hart untouched with
a false return; the succeeding loader returns true and sets the PC to
the entry point 4096. -/
theorem c9_load_elf_witness :
    Lockstep.loadElf elfBad testHart elfName = (false, testHart) ∧
    (Lockstep.loadElf elfOk testHart elfName).1 = true ∧
    (Lockstep.loadElf elfOk testHart elfName).2.pc = 4096 := by
  have hb := (c9_load_elf elfBad testHart elfName).1 rfl
  have hok := (c9_load_elf elfOk testHart elfName).2 [1, 2] 4096 rfl
  refine ⟨hb.1, hok.1, ?_⟩
  rw [hok.2.2]
  show (4096 : Nat) < 2 ^ testHart.width
  decide

end WdRiscv
